import Mathlib

/-!
Verification of the motion/expression synthesis core of `vmc_sender.py`.

The blendshape machinery (`clamp01`, `EXPRESSION_PRESETS`, `BLEND_KEYS_TO_CLEAR`,
`BLINK_KEYS`, `compute_blink`, `apply_expression_and_blink`) works on Python
floats with only `+`, `-`, `*`, `/`, `%`, `abs`, `min`, `max` applied to small
decimal literals; it is embedded over `ℚ`.  A Python `dict[str, float]` is
embedded as a partial map `String → Option ℚ` (`dictGet` / `dictSet` / `hasKey`
mirror `d.get(k, v)`, `d[k] = v` and `k in d`); no code in the program iterates
over a dict (every loop runs over the fixed key lists), so insertion order is
unobservable and the partial map captures the dict exactly.  The trigonometric
and exponential parts (`quat_from_euler_xyz`, `compute_idle_pose`, and the
pose-smoothing step of `main`) are embedded over `ℝ` with `Real.sin`,
`Real.cos`, `Real.exp`.  Network sends (`vmc.blend`, `vmc.apply`) are side
effects on an external transport and carry exactly the values written into the
returned state map, so the embedding drops them and reasons about the returned
map.
-/

namespace VMC

/-- `clamp01(value) = max(0.0, min(1.0, float(value)))` from `vmc_sender.py`. -/
def clamp01 (value : ℚ) : ℚ := max 0 (min 1 value)

/-- Python `d.get(k, default)`. -/
def dictGet (d : String → Option ℚ) (k : String) (default : ℚ) : ℚ :=
  (d k).getD default

/-- Python `d[k] = v`. -/
def dictSet (d : String → Option ℚ) (k : String) (v : ℚ) : String → Option ℚ :=
  fun q => if q = k then some v else d q

/-- Python `k in d`. -/
def hasKey (d : String → Option ℚ) (k : String) : Bool :=
  (d k).isSome

/-- Python `{k: 0.0 for k in keys}`. -/
def zeroDict (keys : List String) : String → Option ℚ :=
  fun q => if q ∈ keys then some 0 else none

/-- `EXPRESSION_PRESETS.get(expr, [])`: the preset table of `vmc_sender.py`
(lines 101–108) read through `dict.get` with default `[]`. -/
def EXPRESSION_PRESETS_get (expr : String) : List (String × ℚ) :=
  if expr = "neutral" then []
  else if expr = "happy" then [("Joy", 1), ("happy", 1)]
  else if expr = "anger" then [("Angry", 1), ("angry", 1)]
  else if expr = "sad" then [("Sorrow", 1), ("sad", 1)]
  else if expr = "fun" then [("Fun", 1), ("relaxed", 1)]
  else if expr = "surprise" then [("Surprised", 1), ("surprised", 1)]
  else []

/-- The six preset names (the keys of `EXPRESSION_PRESETS`). -/
def PRESET_NAMES : List String :=
  ["neutral", "happy", "anger", "sad", "fun", "surprise"]

/-- `BLEND_KEYS_TO_CLEAR` from `vmc_sender.py` (lines 110–129). -/
def BLEND_KEYS_TO_CLEAR : List String :=
  ["Neutral", "neutral", "Joy", "happy", "Angry", "angry", "Sorrow", "sad",
   "Fun", "relaxed", "Surprised", "surprised",
   "Blink", "Blink_L", "Blink_R", "blink", "blinkLeft", "blinkRight"]

/-- `BLINK_KEYS` from `vmc_sender.py` (line 131). -/
def BLINK_KEYS : List String :=
  ["Blink", "Blink_L", "Blink_R", "blink", "blinkLeft", "blinkRight"]

/-- `{k: 0.0 for k in BLEND_KEYS_TO_CLEAR}` (the fresh target dict, and the
default state when `state is None`; also the initial `blend_state` of `main`,
line 238). -/
def initState : String → Option ℚ := zeroDict BLEND_KEYS_TO_CLEAR

/-- Python truthiness of the `custom_expr_key` argument
(`if custom_expr_key:` is false for `None` and for `""`). -/
def truthyKey : Option String → Bool
  | none => false
  | some s => !(s == "")

/-- Lines 165–175 of `apply_expression_and_blink`: build the per-frame `target`
dict — defaults 0 for every recognized key, then either the custom key
(`target[custom_expr_key] = clamp01(intensity)`) or the preset entries
(`target[name] = float(value) * clamp01(intensity)`), then every blink key
forced to `clamp01(blink)`. -/
def targetMap (expr : String) (intensity blink : ℚ) (custom_expr_key : Option String) :
    String → Option ℚ :=
  let target0 := zeroDict BLEND_KEYS_TO_CLEAR
  let target1 :=
    if truthyKey custom_expr_key then
      dictSet target0 (custom_expr_key.getD "") (clamp01 intensity)
    else
      (EXPRESSION_PRESETS_get expr).foldl
        (fun tg nv => dictSet tg nv.1 (nv.2 * clamp01 intensity)) target0
  BLINK_KEYS.foldl (fun tg k => dictSet tg k (clamp01 blink)) target1

/-- Lines 177–182 of `apply_expression_and_blink`: ease `st` toward `target`
over the given keys: `state[key] = prev + (target.get(key, 0.0) - prev) * a`
with `prev = state.get(key, 0.0)`. -/
def easeKeys (a : ℚ) (target st : String → Option ℚ) (keys : List String) :
    String → Option ℚ :=
  keys.foldl
    (fun s k => dictSet s k (dictGet s k 0 + (dictGet target k 0 - dictGet s k 0) * a)) st

/-- `apply_expression_and_blink` from `vmc_sender.py` (lines 153–185), with the
`vmc` transport argument dropped (the `vmc.blend` calls send exactly the values
written into the returned state, and `vmc.apply` carries no data). -/
def apply_expression_and_blink (expr : String) (intensity blink : ℚ)
    (custom_expr_key : Option String) (state : Option (String → Option ℚ))
    (alpha : ℚ) : String → Option ℚ :=
  let st := state.getD initState
  let target := targetMap expr intensity blink custom_expr_key
  easeKeys (clamp01 alpha) target st BLEND_KEYS_TO_CLEAR

/-- One call's worth of inputs to `apply_expression_and_blink`. -/
structure BlendCall where
  expr : String
  intensity : ℚ
  blink : ℚ
  custom_expr_key : Option String
  alpha : ℚ

/-- Feed one call's inputs to `apply_expression_and_blink`, threading the
state as `main`'s loop does (line 270–278). -/
def stepCall (st : String → Option ℚ) (c : BlendCall) : String → Option ℚ :=
  apply_expression_and_blink c.expr c.intensity c.blink c.custom_expr_key (some st) c.alpha

/-- A sequence of calls threaded through the state map, starting (as `main`
does at line 238) from `{k: 0.0 for k in BLEND_KEYS_TO_CLEAR}`. -/
def applySeq (calls : List BlendCall) : String → Option ℚ :=
  calls.foldl stepCall initState

/-- Python `t % p` on floats: `t - p * floor(t / p)` (sign follows the divisor). -/
def ratMod (t p : ℚ) : ℚ := t - p * ⌊t / p⌋

/-- `compute_blink` from `vmc_sender.py` (lines 143–150). -/
def compute_blink (t : ℚ) : ℚ :=
  let period : ℚ := 32/10
  let width : ℚ := 11/100
  let phase := ratMod t period
  if phase < width then
    let x := phase / width
    1 - |x * 2 - 1|
  else 0

/-- `quat_from_euler_xyz` from `vmc_sender.py` (lines 24–32). -/
noncomputable def quat_from_euler_xyz (rx ry rz : ℝ) : ℝ × ℝ × ℝ × ℝ :=
  let cx := Real.cos (rx / 2); let sx := Real.sin (rx / 2)
  let cy := Real.cos (ry / 2); let sy := Real.sin (ry / 2)
  let cz := Real.cos (rz / 2); let sz := Real.sin (rz / 2)
  let qw := cx * cy * cz - sx * sy * sz
  let qx := sx * cy * cz + cx * sy * sz
  let qy := cx * sy * cz - sx * cy * sz
  let qz := cx * cy * sz + sx * sy * cz
  (qx, qy, qz, qw)

/-- `compute_idle_pose` from `vmc_sender.py` (lines 134–140); returns
`(y_root, pitch, yaw, roll)`. -/
noncomputable def compute_idle_pose (t strength : ℝ) : ℝ × ℝ × ℝ × ℝ :=
  let s := strength
  let pitch := Real.sin (t * 1.10) * 0.10 * s
  let yaw := Real.sin (t * 0.75) * 0.14 * s
  let roll := Real.sin (t * 0.50) * 0.06 * s
  let y_root := Real.sin (t * 1.30) * 0.01 * s
  (y_root, pitch, yaw, roll)

/-- The pose smoother's per-tick gain, line 257 of `vmc_sender.py`:
`pose_alpha = 1.0 - math.exp(-frame_dt / max(1e-3, args.pose_smooth))`. -/
noncomputable def pose_alpha (frame_dt pose_smooth : ℝ) : ℝ :=
  1 - Real.exp (-frame_dt / max (1/1000) pose_smooth)

/-- One smoothing accumulator step, lines 258–261 of `vmc_sender.py`:
`smoothed += (raw - smoothed) * pose_alpha`. -/
def smooth_step (smoothed raw alpha : ℝ) : ℝ :=
  smoothed + (raw - smoothed) * alpha

/-! ### Dictionary laws -/

lemma dictGet_dictSet_self (d : String → Option ℚ) (k : String) (v dflt : ℚ) :
    dictGet (dictSet d k v) k dflt = v := by
  simp [dictGet, dictSet]

lemma dictGet_dictSet_ne (d : String → Option ℚ) (k q : String) (v dflt : ℚ)
    (h : q ≠ k) : dictGet (dictSet d k v) q dflt = dictGet d q dflt := by
  simp [dictGet, dictSet, h]

lemma dictSet_apply_ne (d : String → Option ℚ) (k q : String) (v : ℚ)
    (h : q ≠ k) : dictSet d k v q = d q := by
  simp [dictSet, h]

lemma hasKey_dictSet_self (d : String → Option ℚ) (k : String) (v : ℚ) :
    hasKey (dictSet d k v) k = true := by
  simp [hasKey, dictSet]

lemma hasKey_dictSet_of (d : String → Option ℚ) (k q : String) (v : ℚ)
    (h : hasKey d q = true) : hasKey (dictSet d k v) q = true := by
  by_cases hq : q = k
  · simp [hasKey, dictSet, hq]
  · simpa [hasKey, dictSet, hq] using h

lemma dictGet_zeroDict (keys : List String) (k : String) :
    dictGet (zeroDict keys) k 0 = 0 := by
  unfold dictGet zeroDict
  split <;> simp

lemma hasKey_zeroDict_of_mem (keys : List String) (k : String) (h : k ∈ keys) :
    hasKey (zeroDict keys) k = true := by
  simp [hasKey, zeroDict, h]

lemma zeroDict_apply_of_not_mem (keys : List String) (k : String) (h : k ∉ keys) :
    zeroDict keys k = none := by
  simp [zeroDict, h]

/-! ### The easing fold -/

lemma easeKeys_nil (a : ℚ) (tg st : String → Option ℚ) :
    easeKeys a tg st [] = st := rfl

lemma easeKeys_cons (a : ℚ) (tg st : String → Option ℚ) (q : String) (ks : List String) :
    easeKeys a tg st (q :: ks) =
      easeKeys a tg
        (dictSet st q (dictGet st q 0 + (dictGet tg q 0 - dictGet st q 0) * a)) ks := rfl

lemma easeKeys_apply_not_mem (a : ℚ) (tg st : String → Option ℚ)
    (keys : List String) (k : String) (h : k ∉ keys) :
    easeKeys a tg st keys k = st k := by
  induction keys generalizing st with
  | nil => rfl
  | cons q ks ih =>
    rw [List.mem_cons, not_or] at h
    rw [easeKeys_cons, ih _ h.2, dictSet_apply_ne _ _ _ _ h.1]

lemma easeKeys_apply_mem (a : ℚ) (tg st : String → Option ℚ)
    (keys : List String) (k : String) (hnd : keys.Nodup) (h : k ∈ keys) :
    easeKeys a tg st keys k =
      some (dictGet st k 0 + (dictGet tg k 0 - dictGet st k 0) * a) := by
  induction keys generalizing st with
  | nil => cases h
  | cons q ks ih =>
    rw [List.nodup_cons] at hnd
    rw [easeKeys_cons]
    rcases List.mem_cons.mp h with hk | hk
    · subst hk
      rw [easeKeys_apply_not_mem _ _ _ _ _ hnd.1]
      simp [dictSet]
    · have hkq : k ≠ q := by
        rintro rfl; exact hnd.1 hk
      rw [ih _ hnd.2 hk, dictGet_dictSet_ne _ _ _ _ _ hkq]

lemma easeKeys_hasKey_of (a : ℚ) (tg st : String → Option ℚ)
    (keys : List String) (k : String) (h : hasKey st k = true) :
    hasKey (easeKeys a tg st keys) k = true := by
  induction keys generalizing st with
  | nil => exact h
  | cons q ks ih => exact ih _ (hasKey_dictSet_of _ _ _ _ h)

lemma easeKeys_hasKey_mem (a : ℚ) (tg st : String → Option ℚ)
    (keys : List String) (k : String) (h : k ∈ keys) :
    hasKey (easeKeys a tg st keys) k = true := by
  induction keys generalizing st with
  | nil => cases h
  | cons q ks ih =>
    rw [easeKeys_cons]
    rcases List.mem_cons.mp h with hk | hk
    · subst hk
      exact easeKeys_hasKey_of _ _ _ _ _ (hasKey_dictSet_self _ _ _)
    · exact ih _ hk

/-! ### The two target-building folds -/

lemma constFold_apply_not_mem (v : ℚ) (keys : List String) (tg : String → Option ℚ)
    (k : String) (h : k ∉ keys) :
    (keys.foldl (fun t q => dictSet t q v) tg) k = tg k := by
  induction keys generalizing tg with
  | nil => rfl
  | cons q ks ih =>
    rw [List.mem_cons, not_or] at h
    rw [List.foldl_cons, ih _ h.2, dictSet_apply_ne _ _ _ _ h.1]

lemma constFold_apply_mem (v : ℚ) (keys : List String) (tg : String → Option ℚ)
    (k : String) (h : k ∈ keys) :
    (keys.foldl (fun t q => dictSet t q v) tg) k = some v := by
  induction keys generalizing tg with
  | nil => cases h
  | cons q ks ih =>
    rw [List.foldl_cons]
    by_cases hk : k ∈ ks
    · exact ih _ hk
    · have hkq : k = q := by
        rcases List.mem_cons.mp h with h1 | h1
        · exact h1
        · exact absurd h1 hk
      subst hkq
      rw [constFold_apply_not_mem _ _ _ _ hk]
      simp [dictSet]

lemma presetFold_apply_not_mem (i : ℚ) (l : List (String × ℚ)) (tg : String → Option ℚ)
    (k : String) (h : ∀ p ∈ l, p.1 ≠ k) :
    (l.foldl (fun t nv => dictSet t nv.1 (nv.2 * clamp01 i)) tg) k = tg k := by
  induction l generalizing tg with
  | nil => rfl
  | cons p ps ih =>
    rw [List.foldl_cons, ih _ fun q hq => h q (List.mem_cons_of_mem _ hq),
      dictSet_apply_ne]
    exact fun hk => h p (List.mem_cons_self _ _) hk.symm

lemma presetFold_apply_mem (i : ℚ) (l : List (String × ℚ)) (tg : String → Option ℚ)
    (k : String) (w : ℚ) (hnd : (l.map Prod.fst).Nodup) (h : (k, w) ∈ l) :
    (l.foldl (fun t nv => dictSet t nv.1 (nv.2 * clamp01 i)) tg) k =
      some (w * clamp01 i) := by
  induction l generalizing tg with
  | nil => cases h
  | cons p ps ih =>
    rw [List.map_cons, List.nodup_cons] at hnd
    rw [List.foldl_cons]
    rcases List.mem_cons.mp h with hk | hk
    · subst hk
      rw [presetFold_apply_not_mem]
      · simp [dictSet]
      · intro q hq hq1
        have hmem : q.1 ∈ List.map Prod.fst ps := List.mem_map_of_mem Prod.fst hq
        rw [hq1] at hmem
        exact hnd.1 hmem
    · rw [ih _ hnd.2 hk]

/-! ### Characterizing `targetMap` -/

lemma targetMap_apply_blink (e : String) (i b : ℚ) (c : Option String) (k : String)
    (hk : k ∈ BLINK_KEYS) : targetMap e i b c k = some (clamp01 b) := by
  unfold targetMap
  exact constFold_apply_mem _ _ _ _ hk

lemma targetMap_get_blink (e : String) (i b : ℚ) (c : Option String) (k : String)
    (hk : k ∈ BLINK_KEYS) : dictGet (targetMap e i b c) k 0 = clamp01 b := by
  simp [dictGet, targetMap_apply_blink e i b c k hk]

lemma targetMap_apply_custom (e : String) (i b : ℚ) (s : String) (k : String)
    (hs : s ≠ "") (hk : k ∉ BLINK_KEYS) :
    targetMap e i b (some s) k =
      dictSet (zeroDict BLEND_KEYS_TO_CLEAR) s (clamp01 i) k := by
  unfold targetMap
  rw [constFold_apply_not_mem _ _ _ _ hk]
  simp [truthyKey, hs]

lemma targetMap_apply_no_custom (e : String) (i b : ℚ) (c : Option String) (k : String)
    (hc : truthyKey c = false) (hk : k ∉ BLINK_KEYS) :
    targetMap e i b c k =
      ((EXPRESSION_PRESETS_get e).foldl
        (fun tg nv => dictSet tg nv.1 (nv.2 * clamp01 i))
        (zeroDict BLEND_KEYS_TO_CLEAR)) k := by
  unfold targetMap
  rw [constFold_apply_not_mem _ _ _ _ hk, hc]
  simp

/-- Every weight stored in an expression preset is `1.0`. -/
lemma preset_weight_eq_one (e : String) (p : String × ℚ)
    (hp : p ∈ EXPRESSION_PRESETS_get e) : p.2 = 1 := by
  unfold EXPRESSION_PRESETS_get at hp
  split_ifs at hp <;> simp_all <;> rcases hp with rfl | rfl <;> rfl

/-- An expression name that is not a preset key reads back the default `[]`. -/
lemma EXPRESSION_PRESETS_get_of_unknown (e : String) (h : e ∉ PRESET_NAMES) :
    EXPRESSION_PRESETS_get e = [] := by
  simp only [PRESET_NAMES, List.mem_cons, List.not_mem_nil, or_false, not_or] at h
  obtain ⟨h1, h2, h3, h4, h5, h6⟩ := h
  simp [EXPRESSION_PRESETS_get, h1, h2, h3, h4, h5, h6]

/-! ### The per-call easing identity -/

lemma blend_keys_nodup : BLEND_KEYS_TO_CLEAR.Nodup := by decide

/-- The recognized keys are exactly eased toward the target:
`state[key] = prev + (target.get(key, 0.0) - prev) * clamp01(alpha)`. -/
lemma apply_get_of_mem (e : String) (i b : ℚ) (c : Option String)
    (state : Option (String → Option ℚ)) (α : ℚ) (k : String)
    (hk : k ∈ BLEND_KEYS_TO_CLEAR) :
    dictGet (apply_expression_and_blink e i b c state α) k 0 =
      dictGet (state.getD initState) k 0 +
        (dictGet (targetMap e i b c) k 0 - dictGet (state.getD initState) k 0) *
          clamp01 α := by
  unfold apply_expression_and_blink
  simp only [dictGet, easeKeys_apply_mem _ _ _ _ _ blend_keys_nodup hk]
  rfl

/-- A key outside the recognized list is never touched by a call. -/
lemma apply_apply_of_not_mem (e : String) (i b : ℚ) (c : Option String)
    (state : Option (String → Option ℚ)) (α : ℚ) (k : String)
    (hk : k ∉ BLEND_KEYS_TO_CLEAR) :
    apply_expression_and_blink e i b c state α k = (state.getD initState) k := by
  unfold apply_expression_and_blink
  exact easeKeys_apply_not_mem _ _ _ _ _ hk

lemma hasKey_apply_of_mem (e : String) (i b : ℚ) (c : Option String)
    (state : Option (String → Option ℚ)) (α : ℚ) (k : String)
    (hk : k ∈ BLEND_KEYS_TO_CLEAR) :
    hasKey (apply_expression_and_blink e i b c state α) k = true := by
  unfold apply_expression_and_blink
  exact easeKeys_hasKey_mem _ _ _ _ _ hk

/-! ### Range invariants -/

lemma clamp01_nonneg (v : ℚ) : 0 ≤ clamp01 v := le_max_left 0 _

lemma clamp01_le_one (v : ℚ) : clamp01 v ≤ 1 :=
  max_le (by norm_num) (min_le_left 1 v)

lemma clamp01_of_mem (v : ℚ) (h0 : 0 ≤ v) (h1 : v ≤ 1) : clamp01 v = v := by
  unfold clamp01
  rw [min_eq_right h1, max_eq_right h0]

/-- Every stored value of a blend dict lies in `[0, 1]` (reads through the
default `0.0` included). -/
def InRange (d : String → Option ℚ) : Prop :=
  ∀ k, 0 ≤ dictGet d k 0 ∧ dictGet d k 0 ≤ 1

lemma InRange_zeroDict (keys : List String) : InRange (zeroDict keys) := by
  intro k
  rw [dictGet_zeroDict]
  norm_num

lemma InRange_dictSet (d : String → Option ℚ) (k : String) (v : ℚ)
    (hd : InRange d) (h0 : 0 ≤ v) (h1 : v ≤ 1) : InRange (dictSet d k v) := by
  intro q
  by_cases hq : q = k
  · subst hq
    rw [dictGet_dictSet_self]
    exact ⟨h0, h1⟩
  · rw [dictGet_dictSet_ne _ _ _ _ _ hq]
    exact hd q

lemma InRange_constFold (v : ℚ) (keys : List String) (tg : String → Option ℚ)
    (htg : InRange tg) (h0 : 0 ≤ v) (h1 : v ≤ 1) :
    InRange (keys.foldl (fun t q => dictSet t q v) tg) := by
  induction keys generalizing tg with
  | nil => exact htg
  | cons q ks ih =>
    rw [List.foldl_cons]
    exact ih _ (InRange_dictSet _ _ _ htg h0 h1)

lemma InRange_presetFold (i : ℚ) (l : List (String × ℚ)) (tg : String → Option ℚ)
    (htg : InRange tg) (hw : ∀ p ∈ l, 0 ≤ p.2 ∧ p.2 ≤ 1) :
    InRange (l.foldl (fun t nv => dictSet t nv.1 (nv.2 * clamp01 i)) tg) := by
  induction l generalizing tg with
  | nil => exact htg
  | cons p ps ih =>
    rw [List.foldl_cons]
    have hp := hw p (List.mem_cons_self _ _)
    refine ih _ (InRange_dictSet _ _ _ htg ?_ ?_) fun q hq => hw q (List.mem_cons_of_mem _ hq)
    · exact mul_nonneg hp.1 (clamp01_nonneg i)
    · calc p.2 * clamp01 i ≤ 1 * 1 :=
            mul_le_mul hp.2 (clamp01_le_one i) (clamp01_nonneg i) (by norm_num)
        _ = 1 := by norm_num

lemma InRange_targetMap (e : String) (i b : ℚ) (c : Option String) :
    InRange (targetMap e i b c) := by
  unfold targetMap
  apply InRange_constFold _ _ _ _ (clamp01_nonneg b) (clamp01_le_one b)
  by_cases hc : truthyKey c = true
  · rw [if_pos hc]
    exact InRange_dictSet _ _ _ (InRange_zeroDict _) (clamp01_nonneg i) (clamp01_le_one i)
  · rw [if_neg hc]
    refine InRange_presetFold _ _ _ (InRange_zeroDict _) fun p hp => ?_
    rw [preset_weight_eq_one e p hp]
    norm_num

lemma InRange_easeKeys (a : ℚ) (tg st : String → Option ℚ) (keys : List String)
    (ha0 : 0 ≤ a) (ha1 : a ≤ 1) (htg : InRange tg) (hst : InRange st) :
    InRange (easeKeys a tg st keys) := by
  induction keys generalizing st with
  | nil => exact hst
  | cons q ks ih =>
    rw [easeKeys_cons]
    refine ih _ (InRange_dictSet _ _ _ hst ?_ ?_)
    · obtain ⟨hp0, hp1⟩ := hst q
      obtain ⟨ht0, ht1⟩ := htg q
      nlinarith
    · obtain ⟨hp0, hp1⟩ := hst q
      obtain ⟨ht0, ht1⟩ := htg q
      nlinarith

lemma InRange_apply (e : String) (i b : ℚ) (c : Option String)
    (state : Option (String → Option ℚ)) (α : ℚ)
    (hst : InRange (state.getD initState)) :
    InRange (apply_expression_and_blink e i b c state α) := by
  unfold apply_expression_and_blink
  exact InRange_easeKeys _ _ _ _ (clamp01_nonneg α) (clamp01_le_one α)
    (InRange_targetMap e i b c) hst

lemma InRange_initState : InRange initState := InRange_zeroDict _

lemma InRange_applySeq (calls : List BlendCall) : InRange (applySeq calls) := by
  unfold applySeq
  suffices h : ∀ st : String → Option ℚ, InRange st → InRange (calls.foldl stepCall st) from
    h initState InRange_initState
  induction calls with
  | nil => exact fun st hst => hst
  | cons c cs ih =>
    intro st hst
    rw [List.foldl_cons]
    exact ih _ (InRange_apply _ _ _ _ _ _ hst)

lemma hasKey_applySeq (calls : List BlendCall) (k : String)
    (hk : k ∈ BLEND_KEYS_TO_CLEAR) : hasKey (applySeq calls) k = true := by
  unfold applySeq
  suffices h : ∀ st : String → Option ℚ, hasKey st k = true →
      hasKey (calls.foldl stepCall st) k = true from
    h initState (hasKey_zeroDict_of_mem _ _ hk)
  induction calls with
  | nil => exact fun st hst => hst
  | cons c cs ih =>
    intro st hst
    rw [List.foldl_cons]
    exact ih _ (hasKey_apply_of_mem _ _ _ _ _ _ _ hk)

/-! ### Small computations on `clamp01` and the initial state -/

lemma clamp01_one : clamp01 1 = 1 := by norm_num [clamp01]

lemma clamp01_zero : clamp01 0 = 0 := by norm_num [clamp01]

lemma dictGet_initState (k : String) : dictGet initState k 0 = 0 :=
  dictGet_zeroDict BLEND_KEYS_TO_CLEAR k

/-- A recognized key that is neither a blink key, nor the custom key, nor a
preset entry of the chosen expression keeps its default target `0`. -/
lemma targetMap_get_zero (e : String) (i b : ℚ) (c : Option String) (k : String)
    (hc : truthyKey c = false) (hnb : k ∉ BLINK_KEYS)
    (hp : ∀ p ∈ EXPRESSION_PRESETS_get e, p.1 ≠ k) :
    dictGet (targetMap e i b c) k 0 = 0 := by
  unfold dictGet
  rw [targetMap_apply_no_custom _ _ _ _ _ hc hnb, presetFold_apply_not_mem _ _ _ _ hp]
  have h := dictGet_zeroDict BLEND_KEYS_TO_CLEAR k
  unfold dictGet at h
  exact h

/-! ### Claims -/

/-- C3: for every call to `apply_expression_and_blink` — whatever the
expression name, explicit key override, or intensity — every blink-family key's
target is `clamp01 blink`, and with `alpha = 1` every blink-family key of the
returned state equals `clamp01 blink`. -/
theorem vmc_C3 (expr : String) (intensity blink : ℚ) (custom_expr_key : Option String)
    (state : Option (String → Option ℚ)) (k : String) (hk : k ∈ BLINK_KEYS) :
    dictGet (targetMap expr intensity blink custom_expr_key) k 0 = clamp01 blink ∧
    dictGet (apply_expression_and_blink expr intensity blink custom_expr_key state 1) k 0 =
      clamp01 blink := by
  have hk2 : k ∈ BLEND_KEYS_TO_CLEAR := by fin_cases hk <;> decide
  refine ⟨targetMap_get_blink _ _ _ _ _ hk, ?_⟩
  rw [apply_get_of_mem _ _ _ _ _ _ _ hk2, targetMap_get_blink _ _ _ _ _ hk, clamp01_one]
  ring

/-- Witness for C3 at a concrete call. -/
theorem vmc_C3_witness :
    dictGet (targetMap "sad" (3/4) (1/3) (some "Joy")) "Blink" 0 = clamp01 (1/3) ∧
    dictGet (apply_expression_and_blink "sad" (3/4) (1/3) (some "Joy") none 1) "Blink" 0 =
      clamp01 (1/3) :=
  vmc_C3 "sad" (3/4) (1/3) (some "Joy") none "Blink" (by decide)

/-- C4: each recognized key is eased as
`new = old + (target - old) * clamp01 alpha`; with `alpha = 1` the new value is
exactly the target and with `alpha = 0` it is exactly the old value. -/
theorem vmc_C4 (expr : String) (intensity blink alpha : ℚ)
    (custom_expr_key : Option String) (state : Option (String → Option ℚ))
    (k : String) (hk : k ∈ BLEND_KEYS_TO_CLEAR) :
    dictGet (apply_expression_and_blink expr intensity blink custom_expr_key state alpha) k 0 =
      dictGet (state.getD initState) k 0 +
        (dictGet (targetMap expr intensity blink custom_expr_key) k 0 -
          dictGet (state.getD initState) k 0) * clamp01 alpha ∧
    dictGet (apply_expression_and_blink expr intensity blink custom_expr_key state 1) k 0 =
      dictGet (targetMap expr intensity blink custom_expr_key) k 0 ∧
    dictGet (apply_expression_and_blink expr intensity blink custom_expr_key state 0) k 0 =
      dictGet (state.getD initState) k 0 := by
  refine ⟨apply_get_of_mem _ _ _ _ _ _ _ hk, ?_, ?_⟩
  · rw [apply_get_of_mem _ _ _ _ _ _ _ hk, clamp01_one]
    ring
  · rw [apply_get_of_mem _ _ _ _ _ _ _ hk, clamp01_zero]
    ring

/-- Witness for C4 at a concrete call. -/
theorem vmc_C4_witness :
    dictGet (apply_expression_and_blink "anger" (2/3) (1/5) none (some initState) (1/2)) "Angry" 0 =
      dictGet ((some initState).getD initState) "Angry" 0 +
        (dictGet (targetMap "anger" (2/3) (1/5) none) "Angry" 0 -
          dictGet ((some initState).getD initState) "Angry" 0) * clamp01 (1/2) ∧
    dictGet (apply_expression_and_blink "anger" (2/3) (1/5) none (some initState) 1) "Angry" 0 =
      dictGet (targetMap "anger" (2/3) (1/5) none) "Angry" 0 ∧
    dictGet (apply_expression_and_blink "anger" (2/3) (1/5) none (some initState) 0) "Angry" 0 =
      dictGet ((some initState).getD initState) "Angry" 0 :=
  vmc_C4 "anger" (2/3) (1/5) (1/2) none (some initState) "Angry" (by decide)

/-- C5: a call with expression `"happy"`, intensity 1, alpha 1, blink 0 and no
explicit key override returns a state with `Joy = 1`, `happy = 1` and every
other non-blink recognized key equal to 0 (whatever the previous state). -/
theorem vmc_C5 (state : Option (String → Option ℚ)) :
    dictGet (apply_expression_and_blink "happy" 1 0 none state 1) "Joy" 0 = 1 ∧
    dictGet (apply_expression_and_blink "happy" 1 0 none state 1) "happy" 0 = 1 ∧
    ∀ k, k ∈ BLEND_KEYS_TO_CLEAR → k ∉ BLINK_KEYS → k ≠ "Joy" → k ≠ "happy" →
      dictGet (apply_expression_and_blink "happy" 1 0 none state 1) k 0 = 0 := by
  have hjoy : dictGet (targetMap "happy" 1 0 none) "Joy" 0 = 1 := by
    unfold dictGet
    rw [targetMap_apply_no_custom "happy" 1 0 none "Joy" rfl (by decide),
      presetFold_apply_mem 1 (EXPRESSION_PRESETS_get "happy") _ "Joy" 1 (by decide) (by decide)]
    norm_num [clamp01]
  have hhappy : dictGet (targetMap "happy" 1 0 none) "happy" 0 = 1 := by
    unfold dictGet
    rw [targetMap_apply_no_custom "happy" 1 0 none "happy" rfl (by decide),
      presetFold_apply_mem 1 (EXPRESSION_PRESETS_get "happy") _ "happy" 1 (by decide) (by decide)]
    norm_num [clamp01]
  refine ⟨?_, ?_, ?_⟩
  · rw [apply_get_of_mem _ _ _ _ _ _ _ (by decide), hjoy, clamp01_one]
    ring
  · rw [apply_get_of_mem _ _ _ _ _ _ _ (by decide), hhappy, clamp01_one]
    ring
  · intro k hk hnb h1 h2
    fin_cases hk <;>
      first
      | exact absurd (by decide) hnb
      | exact absurd rfl h1
      | exact absurd rfl h2
      | (rw [apply_get_of_mem _ _ _ _ _ _ _ (by decide),
          targetMap_get_zero "happy" 1 0 none _ rfl (by decide) (by decide), clamp01_one]
         ring)

/-- Witness for C5 at a concrete prior state and key. -/
theorem vmc_C5_witness :
    dictGet (apply_expression_and_blink "happy" 1 0 none (some initState) 1) "Joy" 0 = 1 ∧
    dictGet (apply_expression_and_blink "happy" 1 0 none (some initState) 1) "Angry" 0 = 0 :=
  ⟨(vmc_C5 (some initState)).1,
   (vmc_C5 (some initState)).2.2 "Angry" (by decide) (by decide) (by decide) (by decide)⟩

/-- C6: an unknown expression name (with no explicit key override) raises no
error and behaves exactly like `"neutral"`: no preset target is set, and with
blink 0 and `alpha = 1` every non-blink recognized key of the returned state
is 0. -/
theorem vmc_C6 (expr : String) (h : expr ∉ PRESET_NAMES) :
    (∀ (intensity blink alpha : ℚ) (state : Option (String → Option ℚ)),
      apply_expression_and_blink expr intensity blink none state alpha =
        apply_expression_and_blink "neutral" intensity blink none state alpha) ∧
    ∀ (intensity : ℚ) (state : Option (String → Option ℚ)) (k : String),
      k ∈ BLEND_KEYS_TO_CLEAR → k ∉ BLINK_KEYS →
        dictGet (apply_expression_and_blink expr intensity 0 none state 1) k 0 = 0 := by
  have hpre : EXPRESSION_PRESETS_get expr = [] :=
    EXPRESSION_PRESETS_get_of_unknown expr h
  constructor
  · intro i b α st
    unfold apply_expression_and_blink targetMap
    rw [hpre, show EXPRESSION_PRESETS_get "neutral" = [] from rfl]
  · intro i st k hk hnb
    rw [apply_get_of_mem _ _ _ _ _ _ _ hk,
      targetMap_get_zero expr i 0 none k rfl hnb (by rw [hpre]; intro p hp; cases hp),
      clamp01_one]
    ring

/-- Witness for C6 at the unknown expression name `"mystery"`. -/
theorem vmc_C6_witness :
    (apply_expression_and_blink "mystery" 1 0 none none 1 =
      apply_expression_and_blink "neutral" 1 0 none none 1) ∧
    dictGet (apply_expression_and_blink "mystery" 1 0 none none 1) "Joy" 0 = 0 :=
  ⟨(vmc_C6 "mystery" (by decide)).1 1 0 1 none,
   (vmc_C6 "mystery" (by decide)).2 1 none "Joy" (by decide) (by decide)⟩

/-- C10: a call with no prior state behaves like a call on the all-zero
initial state, and after any sequence of calls with arbitrary inputs every
recognized key is present in the state with a value in `[0, 1]`. -/
theorem vmc_C10 :
    (∀ (e : String) (i b : ℚ) (c : Option String) (a : ℚ),
      apply_expression_and_blink e i b c none a =
        apply_expression_and_blink e i b c (some initState) a) ∧
    ∀ (calls : List BlendCall) (k : String), k ∈ BLEND_KEYS_TO_CLEAR →
      hasKey (applySeq calls) k = true ∧
      0 ≤ dictGet (applySeq calls) k 0 ∧ dictGet (applySeq calls) k 0 ≤ 1 :=
  ⟨fun _ _ _ _ _ => rfl,
   fun calls k hk => ⟨hasKey_applySeq calls k hk, InRange_applySeq calls k⟩⟩

/-- Witness for C10 on a concrete two-call sequence. -/
theorem vmc_C10_witness :
    hasKey (applySeq [⟨"happy", 1, 1/2, none, 1/3⟩, ⟨"zzz", 5, -2, some "Blink_L", 7⟩]) "Joy"
        = true ∧
    0 ≤ dictGet (applySeq [⟨"happy", 1, 1/2, none, 1/3⟩, ⟨"zzz", 5, -2, some "Blink_L", 7⟩])
        "Joy" 0 ∧
    dictGet (applySeq [⟨"happy", 1, 1/2, none, 1/3⟩, ⟨"zzz", 5, -2, some "Blink_L", 7⟩])
        "Joy" 0 ≤ 1 :=
  vmc_C10.2 [⟨"happy", 1, 1/2, none, 1/3⟩, ⟨"zzz", 5, -2, some "Blink_L", 7⟩] "Joy" (by decide)

/-- C1 (evaluation of the code at the claimed scenario): with explicit key
`"MyCustomBlend"`, intensity `1/2`, alpha `1`, the target dict does receive
`MyCustomBlend = 1/2`, but the easing/send loop runs only over
`BLEND_KEYS_TO_CLEAR`, so the returned state does NOT contain `MyCustomBlend`
(the lookup yields `none`); all preset keys are 0 as the claim says. -/
theorem vmc_C1_code_eval :
    apply_expression_and_blink "happy" (1/2) 0 (some "MyCustomBlend") none 1 "MyCustomBlend"
        = none ∧
    dictGet (targetMap "happy" (1/2) 0 (some "MyCustomBlend")) "MyCustomBlend" 0 = 1/2 ∧
    dictGet (apply_expression_and_blink "happy" (1/2) 0 (some "MyCustomBlend") none 1) "Joy" 0
        = 0 ∧
    dictGet (apply_expression_and_blink "happy" (1/2) 0 (some "MyCustomBlend") none 1) "happy" 0
        = 0 ∧
    dictGet (apply_expression_and_blink "happy" (1/2) 0 (some "MyCustomBlend") none 1) "Angry" 0
        = 0 ∧
    dictGet (apply_expression_and_blink "happy" (1/2) 0 (some "MyCustomBlend") none 1) "angry" 0
        = 0 ∧
    dictGet (apply_expression_and_blink "happy" (1/2) 0 (some "MyCustomBlend") none 1) "Sorrow" 0
        = 0 ∧
    dictGet (apply_expression_and_blink "happy" (1/2) 0 (some "MyCustomBlend") none 1) "sad" 0
        = 0 ∧
    dictGet (apply_expression_and_blink "happy" (1/2) 0 (some "MyCustomBlend") none 1) "Fun" 0
        = 0 ∧
    dictGet (apply_expression_and_blink "happy" (1/2) 0 (some "MyCustomBlend") none 1) "relaxed" 0
        = 0 ∧
    dictGet (apply_expression_and_blink "happy" (1/2) 0 (some "MyCustomBlend") none 1)
        "Surprised" 0 = 0 ∧
    dictGet (apply_expression_and_blink "happy" (1/2) 0 (some "MyCustomBlend") none 1)
        "surprised" 0 = 0 := by
  have htz : ∀ k, k ∈ BLEND_KEYS_TO_CLEAR → k ∉ BLINK_KEYS → k ≠ "MyCustomBlend" →
      dictGet (targetMap "happy" (1/2) 0 (some "MyCustomBlend")) k 0 = 0 := by
    intro k hk hnb hne
    unfold dictGet
    rw [targetMap_apply_custom "happy" (1/2) 0 "MyCustomBlend" k (by decide) hnb,
      dictSet_apply_ne _ _ _ _ hne]
    simp [zeroDict, hk]
  have hcv : dictGet (targetMap "happy" (1/2) 0 (some "MyCustomBlend")) "MyCustomBlend" 0
      = 1/2 := by
    unfold dictGet
    rw [targetMap_apply_custom "happy" (1/2) 0 "MyCustomBlend" "MyCustomBlend"
      (by decide) (by decide)]
    norm_num [dictSet, clamp01]
  refine ⟨?_, hcv, ?_, ?_, ?_, ?_, ?_, ?_, ?_, ?_, ?_, ?_⟩
  · rw [apply_apply_of_not_mem "happy" (1/2) 0 (some "MyCustomBlend") none 1
      "MyCustomBlend" (by decide)]
    exact zeroDict_apply_of_not_mem BLEND_KEYS_TO_CLEAR "MyCustomBlend" (by decide)
  all_goals
    rw [apply_get_of_mem _ _ _ _ _ _ _ (by decide),
      htz _ (by decide) (by decide) (by decide), clamp01_one]
  all_goals ring

/-! ### The blink oscillator -/

lemma ratMod_nonneg (t p : ℚ) (hp : 0 < p) : 0 ≤ ratMod t p := by
  unfold ratMod
  have h1 : ((⌊t / p⌋ : ℤ) : ℚ) ≤ t / p := Int.floor_le _
  have h2 : p * ((⌊t / p⌋ : ℤ) : ℚ) ≤ p * (t / p) :=
    mul_le_mul_of_nonneg_left h1 (le_of_lt hp)
  have h3 : p * (t / p) = t := by field_simp
  linarith

lemma ratMod_lt (t p : ℚ) (hp : 0 < p) : ratMod t p < p := by
  unfold ratMod
  have h1 : t / p < ((⌊t / p⌋ : ℤ) : ℚ) + 1 := Int.lt_floor_add_one _
  have h2 : p * (t / p) < p * (((⌊t / p⌋ : ℤ) : ℚ) + 1) := (mul_lt_mul_left hp).mpr h1
  have h3 : p * (t / p) = t := by field_simp
  nlinarith

lemma compute_blink_zero : compute_blink 0 = 0 := by
  norm_num [compute_blink, ratMod]

/-- C2 counterexample: the blink oscillator at `t = 0` yields `0`, not the
claimed `1.0` (the triangular pulse peaks at the pulse midpoint, not at the
period start). -/
theorem vmc_C2_counterexample : ¬ compute_blink 0 = 1 := by
  norm_num [compute_blink, ratMod]

/-- C2 (amended): `compute_blink 0 = 0` (not 1); `compute_blink 0.11 = 0`;
`compute_blink 3.2 = compute_blink 0`; for every `t ≥ 0` the output lies in
`[0, 1]`, equals the triangular pulse `1 - |2*phase/W - 1|` while
`phase = t mod 3.2` is below `W = 0.11`, and is exactly `0` on the remainder
of the period. -/
theorem vmc_C2 :
    compute_blink 0 = 0 ∧
    compute_blink (11/100) = 0 ∧
    compute_blink (32/10) = compute_blink 0 ∧
    (∀ t : ℚ, 0 ≤ t → 0 ≤ compute_blink t ∧ compute_blink t ≤ 1) ∧
    (∀ t : ℚ, 0 ≤ t →
      (ratMod t (32/10) < 11/100 →
        compute_blink t = 1 - |2 * ratMod t (32/10) / (11/100) - 1|) ∧
      (11/100 ≤ ratMod t (32/10) → compute_blink t = 0)) := by
  refine ⟨compute_blink_zero, by norm_num [compute_blink, ratMod],
    by rw [compute_blink_zero]; norm_num [compute_blink, ratMod], ?_, ?_⟩
  · intro t ht
    simp only [compute_blink]
    by_cases hlt : ratMod t (32/10) < 11/100
    · rw [if_pos hlt]
      have h0 : 0 ≤ ratMod t (32/10) := ratMod_nonneg t (32/10) (by norm_num)
      have hx0 : 0 ≤ ratMod t (32/10) / (11/100) := by positivity
      have hx1 : ratMod t (32/10) / (11/100) < 1 := (div_lt_one (by norm_num)).mpr hlt
      have habs : |ratMod t (32/10) / (11/100) * 2 - 1| ≤ 1 := by
        rw [abs_le]
        constructor <;> nlinarith
      have habs0 : 0 ≤ |ratMod t (32/10) / (11/100) * 2 - 1| := abs_nonneg _
      constructor <;> linarith
    · rw [if_neg hlt]
      norm_num
  · intro t ht
    constructor
    · intro h
      simp only [compute_blink]
      rw [if_pos h]
      ring_nf
    · intro h
      simp only [compute_blink]
      rw [if_neg (not_lt.mpr h)]

/-- Witness for C2 at `t = 1/2` (inside the zero part of the period) and
`t = 11/200` (the pulse midpoint). -/
theorem vmc_C2_witness :
    (0 ≤ compute_blink (1/2) ∧ compute_blink (1/2) ≤ 1) ∧
    compute_blink (1/2) = 0 ∧
    compute_blink (11/200) = 1 - |2 * ratMod (11/200) (32/10) / (11/100) - 1| :=
  ⟨vmc_C2.2.2.2.1 (1/2) (by norm_num),
   (vmc_C2.2.2.2.2 (1/2) (by norm_num)).2 (by norm_num [ratMod]),
   (vmc_C2.2.2.2.2 (11/200) (by norm_num)).1 (by norm_num [ratMod])⟩

/-- C7: the quaternion builder returns `(0,0,0,1)` on all-zero input, and for
every input the output has unit norm. -/
theorem vmc_C7 :
    quat_from_euler_xyz 0 0 0 = (0, 0, 0, 1) ∧
    ∀ rx ry rz : ℝ,
      (quat_from_euler_xyz rx ry rz).1 ^ 2 + (quat_from_euler_xyz rx ry rz).2.1 ^ 2 +
        (quat_from_euler_xyz rx ry rz).2.2.1 ^ 2 + (quat_from_euler_xyz rx ry rz).2.2.2 ^ 2
        = 1 := by
  constructor
  · norm_num [quat_from_euler_xyz]
  · intro rx ry rz
    simp only [quat_from_euler_xyz]
    have hx := Real.sin_sq_add_cos_sq (rx / 2)
    have hy := Real.sin_sq_add_cos_sq (ry / 2)
    have hz := Real.sin_sq_add_cos_sq (rz / 2)
    linear_combination
      (Real.sin (ry/2) ^ 2 + Real.cos (ry/2) ^ 2) *
          (Real.sin (rz/2) ^ 2 + Real.cos (rz/2) ^ 2) * hx +
        (Real.sin (rz/2) ^ 2 + Real.cos (rz/2) ^ 2) * hy + hz

/-- C8: the idle pose is `(0.01·s·sin(1.30·t), 0.10·s·sin(1.10·t),
0.14·s·sin(0.75·t), 0.06·s·sin(0.50·t))`; strength 0 gives the zero pose, and
doubling the strength doubles every field (any real strength is accepted). -/
theorem vmc_C8 :
    (∀ t s : ℝ, compute_idle_pose t s =
      (0.01 * s * Real.sin (1.30 * t), 0.10 * s * Real.sin (1.10 * t),
       0.14 * s * Real.sin (0.75 * t), 0.06 * s * Real.sin (0.50 * t))) ∧
    (∀ t : ℝ, compute_idle_pose t 0 = (0, 0, 0, 0)) ∧
    (∀ t s : ℝ, compute_idle_pose t (2 * s) =
      (2 * (compute_idle_pose t s).1, 2 * (compute_idle_pose t s).2.1,
       2 * (compute_idle_pose t s).2.2.1, 2 * (compute_idle_pose t s).2.2.2)) := by
  refine ⟨fun t s => ?_, fun t => ?_, fun t s => ?_⟩ <;>
    simp only [compute_idle_pose, Prod.mk.injEq] <;>
    refine ⟨?_, ?_, ?_, ?_⟩ <;>
    rw [mul_comm t] <;>
    ring

/-- C9 counterexample: with `pose_smooth = 1/2000` the code's gain is
`1 - exp(-frame_dt / max(1e-3, 1/2000)) = 1 - exp(-1000·frame_dt)`, not the
claimed `1 - exp(-frame_dt / tau)`: at `frame_dt = 1` the two differ. -/
theorem vmc_C9_counterexample :
    pose_alpha 1 (1/2000) ≠ 1 - Real.exp (-1 / (1/2000)) := by
  unfold pose_alpha
  rw [max_eq_left (by norm_num : (1:ℝ)/2000 ≤ 1/1000)]
  rw [show (-1 : ℝ) / (1/1000) = -1000 by norm_num,
    show (-1 : ℝ) / (1/2000) = -2000 by norm_num]
  have h3 : Real.exp (-2000) < Real.exp (-1000) := Real.exp_lt_exp.mpr (by norm_num)
  intro h
  linarith

/-- C9 (amended): the per-tick gain is `1 - exp(-frame_dt / max(1e-3, tau))`,
which matches the claimed `1 - exp(-frame_dt / tau)` whenever `tau ≥ 1e-3`;
one step always stays between the old and the raw value (no overshoot); the
step vanishes as `frame_dt → 0`; a single step converges to the raw value as
`frame_dt → ∞`; and for every `tau ≤ 1e-3` (in particular as `tau → 0`) the
gain is the fixed near-snap `1 - exp(-1000·frame_dt)`, not an exact snap. -/
theorem vmc_C9 :
    (∀ dt tau : ℝ, 1/1000 ≤ tau → pose_alpha dt tau = 1 - Real.exp (-dt / tau)) ∧
    (∀ dt tau prev raw : ℝ, 0 < dt →
      min prev raw ≤ smooth_step prev raw (pose_alpha dt tau) ∧
      smooth_step prev raw (pose_alpha dt tau) ≤ max prev raw) ∧
    (∀ tau prev raw : ℝ,
      Filter.Tendsto (fun dt => smooth_step prev raw (pose_alpha dt tau))
        (nhds 0) (nhds prev)) ∧
    (∀ tau prev raw : ℝ,
      Filter.Tendsto (fun dt => smooth_step prev raw (pose_alpha dt tau))
        Filter.atTop (nhds raw)) ∧
    (∀ dt tau : ℝ, tau ≤ 1/1000 → pose_alpha dt tau = 1 - Real.exp (-(1000 * dt))) := by
  refine ⟨?_, ?_, ?_, ?_, ?_⟩
  · intro dt tau h
    unfold pose_alpha
    rw [max_eq_right h]
  · intro dt tau prev raw hdt
    have hc : (0:ℝ) < max (1/1000) tau := lt_of_lt_of_le (by norm_num) (le_max_left _ _)
    have hneg : -dt / max (1/1000) tau < 0 :=
      div_neg_of_neg_of_pos (neg_lt_zero.mpr hdt) hc
    have hlt1 : Real.exp (-dt / max (1/1000) tau) < 1 :=
      Real.exp_lt_one_iff.mpr hneg
    have hpos := Real.exp_pos (-dt / max (1/1000) tau)
    have ha0 : 0 < pose_alpha dt tau := by unfold pose_alpha; linarith
    have ha1 : pose_alpha dt tau < 1 := by unfold pose_alpha; linarith
    unfold smooth_step
    rcases le_total prev raw with h | h
    · rw [min_eq_left h, max_eq_right h]
      have hd : 0 ≤ raw - prev := sub_nonneg.mpr h
      constructor
      · nlinarith [mul_nonneg hd ha0.le]
      · nlinarith [mul_le_of_le_one_right hd ha1.le]
    · rw [min_eq_right h, max_eq_left h]
      have hd : 0 ≤ prev - raw := sub_nonneg.mpr h
      constructor
      · nlinarith [mul_nonneg hd (by linarith : (0:ℝ) ≤ 1 - pose_alpha dt tau)]
      · nlinarith [mul_nonneg hd ha0.le]
  · intro tau prev raw
    have hcont : Continuous fun dt : ℝ => smooth_step prev raw (pose_alpha dt tau) := by
      unfold smooth_step pose_alpha
      continuity
    have h0 := hcont.tendsto 0
    have hval : smooth_step prev raw (pose_alpha 0 tau) = prev := by
      simp [smooth_step, pose_alpha]
    rwa [hval] at h0
  · intro tau prev raw
    have hc : (0:ℝ) < max (1/1000) tau := lt_of_lt_of_le (by norm_num) (le_max_left _ _)
    have h1 : Filter.Tendsto (fun dt : ℝ => -dt / max (1/1000) tau)
        Filter.atTop Filter.atBot := by
      have hdiv : Filter.Tendsto (fun dt : ℝ => dt / max (1/1000) tau)
          Filter.atTop Filter.atTop :=
        Filter.Tendsto.atTop_div_const hc Filter.tendsto_id
      refine (Filter.tendsto_neg_atTop_atBot.comp hdiv).congr fun dt => ?_
      simp [neg_div]
    have h2 : Filter.Tendsto (fun dt : ℝ => Real.exp (-dt / max (1/1000) tau))
        Filter.atTop (nhds 0) := Real.tendsto_exp_atBot.comp h1
    have h3 : Filter.Tendsto
        (fun dt : ℝ => prev + (raw - prev) * (1 - Real.exp (-dt / max (1/1000) tau)))
        Filter.atTop (nhds (prev + (raw - prev) * (1 - 0))) :=
      Filter.Tendsto.const_add _ (Filter.Tendsto.const_mul _ (tendsto_const_nhds.sub h2))
    rw [show prev + (raw - prev) * (1 - 0) = raw by ring] at h3
    exact h3
  · intro dt tau h
    unfold pose_alpha
    rw [max_eq_left h, show -dt / ((1:ℝ)/1000) = -(1000 * dt) by ring]

/-- Witness for C9 at concrete gains. -/
theorem vmc_C9_witness :
    pose_alpha 1 1 = 1 - Real.exp (-1 / 1) ∧
    (min 0 1 ≤ smooth_step 0 1 (pose_alpha 1 1) ∧
      smooth_step 0 1 (pose_alpha 1 1) ≤ max 0 1) ∧
    pose_alpha 1 (1/2000) = 1 - Real.exp (-(1000 * 1)) :=
  ⟨vmc_C9.1 1 1 (by norm_num),
   vmc_C9.2.1 1 1 0 1 one_pos,
   vmc_C9.2.2.2.2 1 (1/2000) (by norm_num)⟩

end VMC
